import Mathlib

set_option maxRecDepth 8000

/-!
Verification of the DS18B20 / MQTT telemetry agent (`src/CODE/main.rs`).

The development shallowly embeds the agent's per-cycle behaviour: the raw
scratchpad decode (`main`, lines 288-289 and 322-323), the telemetry payload
builders (`send_telemetry`, `send_telemetry_with_timestamp`,
`send_telemetry_full_format`, `send_ota_status`), the one-shot reading before
the loop (lines 272-309), the steady-state acquisition loop (lines 312-341)
and the startup sequence (Wi-Fi retry loop, MQTT channel open, OTA status).

Machine integers are embedded as `Nat`/`Int` with explicit wrap-around
(`% 65536`, `% 256`) where the Rust `i16`/`u8` casts and shifts wrap.  The
`f32` temperature `raw as f32 / 16.0` is embedded in `ℚ`: every `i16` value
is exactly representable in `f32` and division by the power of two 16 is
exact, so the rational value coincides with the `f32` the program computes.

Outcomes of the external collaborators (bus reset/write/read, Wi-Fi connect,
MQTT open/publish, the system clock) are inputs of the embedding, so each
fault scenario is a concrete input.  A Rust `panic!` (the `unwrap` on
`duration_since`) is embedded as the `Except.error` branch.
-/

/-! ### i16 / u8 arithmetic of the decode expression -/

/-- Two's-complement reading of the low 16 bits of a natural number, as the
Rust `i16` bit pattern it denotes. -/
def toI16 (n : Nat) : Int :=
  let u := n % 65536
  if u < 32768 then (u : Int) else (u : Int) - 65536

/-- The 16-bit two's-complement representation of an integer (`i16` bit
pattern as an unsigned value). -/
def u16ofI16 (x : Int) : Nat := (x % 65536).toNat

/-- Rust `x << 8` on `i16`: the value wraps, only bits 0-15 survive. -/
def i16Shl8 (x : Int) : Int := toI16 (u16ofI16 x <<< 8)

/-- Rust `x | y` on `i16`: bitwise or of the two's-complement patterns. -/
def i16Or (x y : Int) : Int := toI16 (Nat.lor (u16ofI16 x) (u16ofI16 y))

/-- Rust `b as i16` for a `u8` value `b`. -/
def byteAsI16 (b : Nat) : Int := ((b % 256 : Nat) : Int)

/-- Embedding of `let temp_raw = (data[1] as i16) << 8 | data[0] as i16;`
(`main`, line 288 and line 322). -/
def tempRaw (data : List Nat) : Int :=
  i16Or (i16Shl8 (byteAsI16 (data.getD 1 0))) (byteAsI16 (data.getD 0 0))

/-- Embedding of `let temp_celsius = Celsius(temp_raw as f32 / 16.0);`
(`main`, line 289 and line 323), in `ℚ` (exact for `i16 / 16.0` in `f32`). -/
def decodeTemp (data : List Nat) : ℚ := (tempRaw data : ℚ) / 16

/-- Spec-side decoder: `int16(bytes[0..2], little-endian) / 16.0`, written
directly from the spec's words for comparison with `decodeTemp`. -/
def specTemp (data : List Nat) : ℚ :=
  (toI16 (data.getD 0 0 % 256 + 256 * (data.getD 1 0 % 256)) : ℚ) / 16

/-! ### CRC-8 (spec model)

The repository source never verifies the scratchpad checksum; the CRC below
exists only to state the spec's claims about buffers with a (mis)matching
trailing byte. -/

/-- Modelled from the spec: one bit step of the Dallas CRC-8 (polynomial
0x31 reflected = 0x8C, LSB first); the repository source contains no
checksum code. State is `(crc, remaining byte bits)`. -/
def crc8Bit (s : Nat × Nat) : Nat × Nat :=
  let mix := (s.1 ^^^ s.2) % 2
  let c := s.1 / 2
  (if mix = 1 then c ^^^ 0x8C else c, s.2 / 2)

/-- Modelled from the spec: CRC-8 update over one byte (8 bit steps). -/
def crc8Update (crc byte : Nat) : Nat :=
  ((List.range 8).foldl (fun s _ => crc8Bit s) (crc, byte)).1

/-- Modelled from the spec: Dallas CRC-8 of a byte sequence, initial value
zero. -/
def crc8 (data : List Nat) : Nat := data.foldl crc8Update 0

/-! ### Telemetry payloads and builders -/

/-- One JSON payload shape published to `v1/devices/me/telemetry`. -/
inductive Payload
  | plain (temperature : ℚ)
  | timestamped (ts : Nat) (temperature : ℚ) (clientTs : Nat)
  | canonical (timestamp : Nat) (temperature : ℚ) (clientTs : Nat)
  | status (fwTitle fwVersion fwState : String)
deriving DecidableEq

/-- Embedding of the builders' clock read
`SystemTime::now().duration_since(UNIX_EPOCH).unwrap().as_millis()`: the
clock value is an `Int` (milliseconds relative to the Unix epoch); `none`
is the panic of `unwrap` when the clock is before the epoch. -/
def epochMillis (clock : Int) : Option Nat :=
  if clock < 0 then none else some clock.toNat

/-- Payload built by `send_telemetry` (line 134): `{temperature}`. -/
def send_telemetry (temperature : ℚ) : Payload := .plain temperature

/-- Payload built by `send_telemetry_with_timestamp` (line 148):
`{ts: now, values: {temperature, client_ts: now}}`; `none` models the
panic on a pre-epoch clock. -/
def send_telemetry_with_timestamp (clock : Int) (temperature : ℚ) :
    Option Payload :=
  (epochMillis clock).map (fun now => .timestamped now temperature now)

/-- Payload built by `send_telemetry_full_format` (line 176):
`{timestamp: now, temperature, client_ts: now}`; `none` models the panic
on a pre-epoch clock. -/
def send_telemetry_full_format (clock : Int) (temperature : ℚ) :
    Option Payload :=
  (epochMillis clock).map (fun now => .canonical now temperature now)

/-- Payload built by `send_ota_status` (line 120):
`{fw_title, fw_version, fw_state}`. -/
def send_ota_status (title version state : String) : Payload :=
  .status title version state

/-- The `ts`/`timestamp` field of a reading payload, when present. -/
def Payload.tsField : Payload → Option Nat
  | .timestamped ts _ _ => some ts
  | .canonical ts _ _ => some ts
  | _ => none

/-- The `client_ts` field of a reading payload, when present. -/
def Payload.clientTsField : Payload → Option Nat
  | .timestamped _ _ c => some c
  | .canonical _ _ c => some c
  | _ => none

/-! ### Observable events of one run -/

/-- One observable call of the agent: bus operations, delays, channel
lifecycle and publishes, each carrying the outcome its collaborator
returned (the call itself always happens). -/
inductive Event
  | connectAttempt (ok : Bool)
  | openChannel (ok : Bool)
  | reset (ok : Bool)
  | writeBytes (cmd : List Nat) (ok : Bool)
  | readBytes (len : Nat) (ok : Bool)
  | delayMs (ms : Nat)
  | publish (p : Payload) (ok : Bool)
deriving DecidableEq

/-- Whether an event is a publish call (of any payload shape). -/
def Event.isPublish : Event → Bool
  | .publish _ _ => true
  | _ => false

/-- Whether an event is a publish of a Status (`fw_*`) payload. -/
def Event.isStatusPublish : Event → Bool
  | .publish (.status _ _ _) _ => true
  | _ => false

/-- Whether an event is a 1-Wire bus operation (reset, write or read). -/
def Event.isBusOp : Event → Bool
  | .reset _ => true
  | .writeBytes _ _ => true
  | .readBytes _ _ => true
  | _ => false

/-- Whether an event is a channel-open (MQTT client init/start) call. -/
def Event.isOpenChannel : Event → Bool
  | .openChannel _ => true
  | _ => false

/-- Number of events of a trace satisfying `p`. -/
def countEvents (p : Event → Bool) (t : List Event) : Nat :=
  (t.filter p).length

/-! ### One acquisition cycle -/

/-- The collaborator outcomes one acquisition attempt can observe: the five
bus calls, the scratchpad bytes a successful read returns, the two system
clock reads (one per timestamped builder) and the three publish outcomes. -/
structure CycleInputs where
  reset1 : Bool
  write1 : Bool
  reset2 : Bool
  write2 : Bool
  readOk : Bool
  readData : List Nat
  clockTs : Int
  clockFull : Int
  pubPlain : Bool
  pubTs : Bool
  pubFull : Bool
deriving DecidableEq

/-- The three publish calls after a successful read (`main`, lines 322-334
and likewise 288-300): plain, then timestamped, then full-format, each
failure only logged; `Except.error` is the panic of a pre-epoch clock
inside a builder. -/
def publishSeq (inp : CycleInputs) (pre : List Event) :
    Except String (List Event) :=
  let temp := decodeTemp inp.readData
  let e1 := pre ++ [.publish (send_telemetry temp) inp.pubPlain]
  match send_telemetry_with_timestamp inp.clockTs temp with
  | none => .error "panicked: duration_since unwrap"
  | some p =>
    let e2 := e1 ++ [.publish p inp.pubTs]
    match send_telemetry_full_format inp.clockFull temp with
    | none => .error "panicked: duration_since unwrap"
    | some q => .ok (e2 ++ [.publish q inp.pubFull])

/-- One iteration of the steady-state loop (`main`, lines 312-341): on a
successful first reset the write/second-reset/write results are discarded
(`let _ =`), the 9-byte read alone gates decode and publishing; every
iteration ends with the 3000 ms delay. -/
def runCycle (inp : CycleInputs) : Except String (List Event) :=
  if inp.reset1 then
    let pre : List Event :=
      [.reset true, .writeBytes [0xCC, 0x44] inp.write1, .delayMs 750,
       .reset inp.reset2, .writeBytes [0xCC, 0xBE] inp.write2,
       .readBytes 9 inp.readOk]
    if inp.readOk then
      (publishSeq inp pre).map (fun t => t ++ [.delayMs 3000])
    else .ok (pre ++ [.delayMs 3000])
  else .ok [.reset false, .delayMs 3000]

/-- The steady-state loop over the supplied list of cycle inputs; a panic
in any cycle aborts the whole run. -/
def steadyLoop : List CycleInputs → Except String (List Event)
  | [] => .ok []
  | c :: rest =>
    match runCycle c with
    | .error m => .error m
    | .ok t =>
      match steadyLoop rest with
      | .error m => .error m
      | .ok ts => .ok (t ++ ts)

/-- The one-shot direct reading before the loop (`main`, lines 272-309):
unlike the loop body, this path checks each write and the second reset and
aborts the attempt on their failure. -/
def firstReading (inp : CycleInputs) : Except String (List Event) :=
  if inp.reset1 then
    let e1 : List Event := [.reset true, .writeBytes [0xCC, 0x44] inp.write1]
    if inp.write1 then
      let e2 := e1 ++ [.delayMs 750, .reset inp.reset2]
      if inp.reset2 then
        let e3 := e2 ++ [.writeBytes [0xCC, 0xBE] inp.write2]
        if inp.write2 then
          let e4 := e3 ++ [.readBytes 9 inp.readOk]
          if inp.readOk then publishSeq inp e4
          else .ok e4
        else .ok e3
      else .ok e2
    else .ok e1
  else .ok [.reset false]

/-! ### The whole run -/

/-- The collaborator outcomes of one run: the Wi-Fi connect outcomes the
retry loop consumes, the MQTT channel-open outcome, the OTA status publish
outcome, and the cycle inputs of the one-shot reading and of the observed
loop iterations. -/
structure RunInputs where
  wifi : List Bool
  mqttOpen : Bool
  statusPub : Bool
  firstCycle : CycleInputs
  cycles : List CycleInputs
deriving DecidableEq

/-- How the modelled run ends: `fatal` is `main` returning `Err` (the
channel-open failure path), `panicked` is a Rust panic, `running` means the
supplied inputs were exhausted with the loop still going. -/
inductive Outcome
  | fatal
  | panicked
  | running
deriving DecidableEq

/-- The Wi-Fi retry loop (`main`, lines 231-242): consume connect outcomes
until the first success, sleeping 5000 ms after each failure; returns
whether the link came up within the supplied outcomes, with the trace. -/
def wifiPhase : List Bool → Bool × List Event
  | [] => (false, [])
  | b :: rest =>
    if b then (true, [.connectAttempt true])
    else
      let r := wifiPhase rest
      (r.1, .connectAttempt false :: .delayMs 5000 :: r.2)

/-- The trace of `n` failed connect attempts, each followed by the fixed
5000 ms backoff. -/
def wifiFailTrace : Nat → List Event
  | 0 => []
  | n + 1 => .connectAttempt false :: .delayMs 5000 :: wifiFailTrace n

/-- Everything after a successful status-publish call: the one-shot reading
then the steady-state loop; a panic ends the run. -/
def postStatus (inp : RunInputs) : Outcome × List Event :=
  match firstReading inp.firstCycle with
  | .error _ => (.panicked, [])
  | .ok tf =>
    match steadyLoop inp.cycles with
    | .error _ => (.panicked, tf)
    | .ok ts => (.running, tf ++ ts)

/-- The whole run of `main` from the Wi-Fi retry loop on (line 231 to the
loop): channel-open happens once, only after a connect success; its failure
returns `Err` from `main`; the OTA status publish follows a successful open
and its failure is only logged. -/
def run (inp : RunInputs) : Outcome × List Event :=
  let w := wifiPhase inp.wifi
  if w.1 then
    if inp.mqttOpen then
      let p := postStatus inp
      (p.1, w.2 ++ .openChannel true ::
        .publish (send_ota_status "myFirmware" "1.0.0" "UPDATED")
          inp.statusPub :: p.2)
    else (.fatal, w.2 ++ [.openChannel false])
  else (.running, w.2)

/-! ### Concrete inputs used in scenarios -/

/-- Scratchpad with raw temperature 0x0550 and a correct trailing CRC. -/
def buf85 : List Nat := [0x50, 0x05, 0, 0, 0, 0, 0, 0, 212]

/-- Scratchpad with raw temperature 0xFF5E and a correct trailing CRC. -/
def bufNeg : List Nat := [0x5E, 0xFF, 0, 0, 0, 0, 0, 0, 162]

/-- Scratchpad whose trailing byte disagrees with the CRC of bytes 0-7. -/
def bufBadCrc : List Nat := [0x50, 0x05, 0, 0, 0, 0, 0, 0, 213]

/-- Cycle inputs where every collaborator call succeeds, the read returns
`d` and both clock reads sit at the epoch. -/
def okCycle (d : List Nat) : CycleInputs :=
  { reset1 := true, write1 := true, reset2 := true, write2 := true,
    readOk := true, readData := d, clockTs := 0, clockFull := 0,
    pubPlain := true, pubTs := true, pubFull := true }

/-- Cycle inputs whose first reset already fails: the attempt observes
nothing else. -/
def noopCycle : CycleInputs :=
  { reset1 := false, write1 := true, reset2 := true, write2 := true,
    readOk := false, readData := [], clockTs := 0, clockFull := 0,
    pubPlain := true, pubTs := true, pubFull := true }

/-- Number of publish calls a cycle result contains (a panicked cycle is
counted by its absent trace). -/
def publishCountE : Except String (List Event) → Nat
  | .ok t => countEvents Event.isPublish t
  | .error _ => 0

/-! ### Arithmetic of the decode expression -/

/-- Oring a multiple of 256 with a byte is addition. -/
theorem lor_mul256 (a b : Nat) (hb : b < 256) : Nat.lor (a * 256) b = a * 256 + b := by
  have h := (Nat.mul_add_lt_is_or (show b < 2 ^ 8 by omega) a).symm
  have e : (2 : Nat) ^ 8 * a = a * 256 := by ring
  rw [e] at h
  exact h

/-- The unsigned pattern of a small natural number is itself. -/
theorem u16ofI16_ofNat (n : Nat) (h : n < 65536) : u16ofI16 (n : Int) = n := by
  unfold u16ofI16
  omega

/-- Taking the unsigned pattern of a two's-complement reading recovers the
low 16 bits. -/
theorem u16ofI16_toI16 (n : Nat) : u16ofI16 (toI16 n) = n % 65536 := by
  unfold u16ofI16 toI16
  dsimp only
  split <;> omega

/-- The decode expression combines the two low bytes into the little-endian
16-bit pattern read as two's complement. -/
theorem tempRaw_eq (d : List Nat) (h0 : d.getD 0 0 < 256) (h1 : d.getD 1 0 < 256) :
    tempRaw d = toI16 (d.getD 0 0 + 256 * d.getD 1 0) := by
  unfold tempRaw i16Or i16Shl8 byteAsI16
  rw [Nat.mod_eq_of_lt h0, Nat.mod_eq_of_lt h1]
  rw [u16ofI16_ofNat _ (by omega)]
  rw [show (d.getD 1 0) <<< 8 = d.getD 1 0 * 256 from by rw [Nat.shiftLeft_eq]]
  rw [u16ofI16_toI16]
  rw [u16ofI16_ofNat _ (by omega)]
  rw [Nat.mod_eq_of_lt (show d.getD 1 0 * 256 < 65536 by omega)]
  rw [lor_mul256 _ _ h0]
  congr 1
  omega

/-- Every `getD` of a byte list is a byte (the default 0 included). -/
theorem getD_lt256 (d : List Nat) (hb : ∀ b ∈ d, b < 256) (i : Nat) :
    d.getD i 0 < 256 := by
  by_cases h : i < d.length
  · rw [List.getD_eq_getElem d 0 h]
    exact hb _ (List.getElem_mem h)
  · rw [List.getD_eq_default d 0 (by omega)]
    omega

/-- The full trace of a loop iteration whose first reset and read succeed
and whose clock reads are at or after the epoch. -/
theorem runCycle_full_trace (c : CycleInputs) (hr : c.reset1 = true)
    (hrd : c.readOk = true) (hts : 0 ≤ c.clockTs) (hf : 0 ≤ c.clockFull) :
    runCycle c = .ok
      [.reset true, .writeBytes [0xCC, 0x44] c.write1, .delayMs 750,
       .reset c.reset2, .writeBytes [0xCC, 0xBE] c.write2, .readBytes 9 true,
       .publish (.plain (decodeTemp c.readData)) c.pubPlain,
       .publish (.timestamped c.clockTs.toNat (decodeTemp c.readData)
         c.clockTs.toNat) c.pubTs,
       .publish (.canonical c.clockFull.toNat (decodeTemp c.readData)
         c.clockFull.toNat) c.pubFull,
       .delayMs 3000] := by
  simp [runCycle, publishSeq, send_telemetry, send_telemetry_with_timestamp,
    send_telemetry_full_format, epochMillis, hr, hrd,
    Int.not_lt.mpr hts, Int.not_lt.mpr hf, Except.map]

/-! ### Claim C3 -/

/-- C3: for every 9-byte scratchpad buffer with a correct trailing CRC-8,
the decoder yields the signed 16-bit little-endian integer of bytes 0-1
divided by 16 (the spec-side `specTemp`); raw 0x0550 decodes to 85 °C and
raw 0xFF5E decodes to −10.125 °C by two's-complement sign extension. -/
theorem C3_decode_int16_le (d : List Nat) (h9 : d.length = 9)
    (hb : ∀ b ∈ d, b < 256) (hcrc : d.getD 8 0 = crc8 (d.take 8)) :
    decodeTemp d = specTemp d ∧
      tempRaw buf85 = 1360 ∧ decodeTemp buf85 = 85 ∧
      tempRaw bufNeg = -162 ∧ decodeTemp bufNeg = -10.125 := by
  refine ⟨?_, by decide, ?_, by decide, ?_⟩
  · have h0 := getD_lt256 d hb 0
    have h1 := getD_lt256 d hb 1
    unfold decodeTemp specTemp
    rw [tempRaw_eq d h0 h1, Nat.mod_eq_of_lt h0, Nat.mod_eq_of_lt h1]
  · have h : tempRaw buf85 = 1360 := by decide
    show ((tempRaw buf85 : ℚ)) / 16 = 85
    rw [h]
    norm_num
  · have h : tempRaw bufNeg = -162 := by decide
    show ((tempRaw bufNeg : ℚ)) / 16 = -10.125
    rw [h]
    norm_num

/-- C3 at a concrete input: `buf85` is a valid scratchpad (correct CRC) and
decodes to the spec-side value, namely 85 °C. -/
theorem C3_decode_int16_le_witness :
    buf85.getD 8 0 = crc8 (buf85.take 8) ∧ decodeTemp buf85 = specTemp buf85 ∧
      decodeTemp buf85 = 85 :=
  ⟨by decide,
   (C3_decode_int16_le buf85 (by decide) (by decide) (by decide)).1,
   (C3_decode_int16_le buf85 (by decide) (by decide) (by decide)).2.2.1⟩

/-! ### Claim C9 -/

/-- C9: two 9-byte buffers agreeing on bytes 0 and 1 decode to the same
temperature and produce identical cycle results, whatever bytes 2-8 (the
CRC byte included) hold: bytes 2-8 never influence the decode stage. -/
theorem C9_only_low_bytes_matter (d e : List Nat) (h9 : d.length = 9)
    (h9e : e.length = 9) (h0 : d.getD 0 0 = e.getD 0 0)
    (h1 : d.getD 1 0 = e.getD 1 0) :
    decodeTemp d = decodeTemp e ∧
      ∀ c : CycleInputs,
        runCycle { c with readData := d } = runCycle { c with readData := e } := by
  have hdec : decodeTemp d = decodeTemp e := by
    unfold decodeTemp tempRaw
    rw [h0, h1]
  refine ⟨hdec, fun c => ?_⟩
  simp only [runCycle, publishSeq, hdec]

/-- C9 at concrete inputs: two buffers sharing bytes 0-1 but differing in
every one of bytes 2-8 decode identically and their all-success cycles
coincide. -/
theorem C9_only_low_bytes_matter_witness :
    decodeTemp [0x50, 0x05, 0, 0, 0, 0, 0, 0, 212] =
        decodeTemp [0x50, 0x05, 9, 8, 7, 6, 5, 4, 3] ∧
      runCycle (okCycle [0x50, 0x05, 0, 0, 0, 0, 0, 0, 212]) =
        runCycle (okCycle [0x50, 0x05, 9, 8, 7, 6, 5, 4, 3]) :=
  ⟨(C9_only_low_bytes_matter _ _ (by decide) (by decide) (by decide) (by decide)).1,
   (C9_only_low_bytes_matter [0x50, 0x05, 0, 0, 0, 0, 0, 0, 212]
      [0x50, 0x05, 9, 8, 7, 6, 5, 4, 3] (by decide) (by decide) (by decide)
      (by decide)).2 (okCycle [0x50, 0x05, 0, 0, 0, 0, 0, 0, 212])⟩

/-! ### Claim C1 -/

/-- C1 as stated is false: `bufBadCrc` carries a trailing byte that does
not equal the CRC-8 of bytes 0-7, yet the cycle decodes it and performs
three publish calls instead of failing with a checksum mismatch and
publishing nothing. -/
theorem C1_bad_crc_still_published :
    bufBadCrc.getD 8 0 ≠ crc8 (bufBadCrc.take 8) ∧
      publishCountE (runCycle (okCycle bufBadCrc)) = 3 := by
  constructor
  · decide
  · decide

/-- C1 amended: the decode stage performs no checksum verification.  For
every 9-byte scratchpad buffer whose trailing byte differs from the CRC-8
of bytes 0-7, an all-success cycle still decodes bytes 0-1 into a
temperature and performs all three publish calls. -/
theorem C1_no_checksum_verification (d : List Nat) (h9 : d.length = 9)
    (hb : ∀ b ∈ d, b < 256) (hbad : d.getD 8 0 ≠ crc8 (d.take 8)) :
    ∃ t, runCycle (okCycle d) = .ok t ∧
      countEvents Event.isPublish t = 3 ∧
      Event.publish (.plain (decodeTemp d)) true ∈ t := by
  refine ⟨_, runCycle_full_trace (okCycle d) rfl rfl (by simp [okCycle])
    (by simp [okCycle]), ?_, ?_⟩
  · simp [countEvents, Event.isPublish]
  · simp [okCycle]

/-- C1 amended at a concrete input: the all-success cycle over `bufBadCrc`
performs three publish calls. -/
theorem C1_no_checksum_verification_witness :
    ∃ t, runCycle (okCycle bufBadCrc) = .ok t ∧
      countEvents Event.isPublish t = 3 ∧
      Event.publish (.plain (decodeTemp bufBadCrc)) true ∈ t :=
  C1_no_checksum_verification bufBadCrc (by decide) (by decide) (by decide)

/-! ### Claim C2 -/

/-- C2 as stated is false: in the steady-state loop a cycle whose
`write_bytes` of the convert command returns a fault (first reset and read
succeeding) still performs three publish calls, because the loop discards
the write results (`let _ =`). -/
theorem C2_write_fault_still_publishes :
    ({ okCycle buf85 with write1 := false } : CycleInputs).write1 = false ∧
      publishCountE (runCycle { okCycle buf85 with write1 := false }) = 3 := by
  constructor
  · rfl
  · decide

/-- C2 amended: a fault of the first reset or of the scratchpad read makes
the cycle perform zero publish calls and the loop proceed to the next
scheduled cycle without crashing; faults of the two writes and of the
second reset are discarded and do not by themselves abort the attempt. -/
theorem C2_reset_or_read_fault_no_publish (c : CycleInputs)
    (rest : List CycleInputs) (h : c.reset1 = false ∨ c.readOk = false) :
    ∃ t, runCycle c = .ok t ∧ countEvents Event.isPublish t = 0 ∧
      steadyLoop (c :: rest) = (steadyLoop rest).map (fun ts => t ++ ts) := by
  have hrc : ∃ t, runCycle c = .ok t ∧ countEvents Event.isPublish t = 0 := by
    by_cases hr : c.reset1 = true
    · have hro : c.readOk = false := by
        rcases h with h | h
        · rw [hr] at h
          exact absurd h (by decide)
        · exact h
      exact ⟨[.reset true, .writeBytes [0xCC, 0x44] c.write1, .delayMs 750,
          .reset c.reset2, .writeBytes [0xCC, 0xBE] c.write2,
          .readBytes 9 false, .delayMs 3000],
        by simp [runCycle, hr, hro], by simp [countEvents, Event.isPublish]⟩
    · exact ⟨[.reset false, .delayMs 3000], by simp [runCycle, hr],
        by simp [countEvents, Event.isPublish]⟩
  obtain ⟨t, ht, hcount⟩ := hrc
  refine ⟨t, ht, hcount, ?_⟩
  simp only [steadyLoop]
  rw [ht]
  cases hs : steadyLoop rest <;> simp [Except.map]

/-- C2 amended at a concrete input: a cycle whose first reset fails
publishes nothing and the following cycle still runs. -/
theorem C2_reset_or_read_fault_no_publish_witness :
    ∃ t, runCycle noopCycle = .ok t ∧ countEvents Event.isPublish t = 0 ∧
      steadyLoop [noopCycle, okCycle buf85] =
        (steadyLoop [okCycle buf85]).map (fun ts => t ++ ts) :=
  C2_reset_or_read_fault_no_publish noopCycle [okCycle buf85] (Or.inl rfl)

/-! ### Claim C4 -/

/-- C4: in every loop cycle whose read (and hence decode) succeeds, the
trace is exactly the bus sequence followed by the three publish calls in
the fixed order plain → timestamped → canonical, all strictly after the
scratchpad read, then the inter-cycle delay. -/
theorem C4_three_publishes_in_order (c : CycleInputs) (hr : c.reset1 = true)
    (hrd : c.readOk = true) (hts : 0 ≤ c.clockTs) (hf : 0 ≤ c.clockFull) :
    runCycle c = .ok
      [.reset true, .writeBytes [0xCC, 0x44] c.write1, .delayMs 750,
       .reset c.reset2, .writeBytes [0xCC, 0xBE] c.write2, .readBytes 9 true,
       .publish (.plain (decodeTemp c.readData)) c.pubPlain,
       .publish (.timestamped c.clockTs.toNat (decodeTemp c.readData)
         c.clockTs.toNat) c.pubTs,
       .publish (.canonical c.clockFull.toNat (decodeTemp c.readData)
         c.clockFull.toNat) c.pubFull,
       .delayMs 3000] :=
  runCycle_full_trace c hr hrd hts hf

/-- C4 at a concrete input: the all-success cycle over `buf85` publishes
plain, timestamped and canonical, in that order, after the read. -/
theorem C4_three_publishes_in_order_witness :
    runCycle (okCycle buf85) = .ok
      [.reset true, .writeBytes [0xCC, 0x44] true, .delayMs 750,
       .reset true, .writeBytes [0xCC, 0xBE] true, .readBytes 9 true,
       .publish (.plain (decodeTemp buf85)) true,
       .publish (.timestamped 0 (decodeTemp buf85) 0) true,
       .publish (.canonical 0 (decodeTemp buf85) 0) true,
       .delayMs 3000] :=
  C4_three_publishes_in_order (okCycle buf85) rfl rfl (by decide) (by decide)

/-! ### Claim C5 -/

/-- C5: for a fixed clock value `T`, the timestamped builder embeds `T`
both as the top-level `ts` and as `values.client_ts`, and the canonical
builder embeds `T` both as `timestamp` and as `client_ts`; within each
message the two time fields are equal because each builder reads the clock
once. -/
theorem C5_ts_equals_client_ts (T : Int) (q : ℚ) (hT : 0 ≤ T) :
    send_telemetry_with_timestamp T q = some (.timestamped T.toNat q T.toNat) ∧
      send_telemetry_full_format T q = some (.canonical T.toNat q T.toNat) ∧
      (send_telemetry_with_timestamp T q).bind Payload.tsField = some T.toNat ∧
      (send_telemetry_with_timestamp T q).bind Payload.clientTsField =
        some T.toNat ∧
      (send_telemetry_full_format T q).bind Payload.tsField = some T.toNat ∧
      (send_telemetry_full_format T q).bind Payload.clientTsField =
        some T.toNat := by
  have h : epochMillis T = some T.toNat := by
    simp [epochMillis, Int.not_lt.mpr hT]
  refine ⟨?_, ?_, ?_, ?_, ?_, ?_⟩ <;>
    simp [send_telemetry_with_timestamp, send_telemetry_full_format, h,
      Payload.tsField, Payload.clientTsField, Option.bind]

/-- C5 at a concrete clock: both builders embed 1700000000000 twice. -/
theorem C5_ts_equals_client_ts_witness :
    send_telemetry_with_timestamp 1700000000000 85 =
        some (.timestamped 1700000000000 85 1700000000000) ∧
      send_telemetry_full_format 1700000000000 85 =
        some (.canonical 1700000000000 85 1700000000000) :=
  ⟨(C5_ts_equals_client_ts 1700000000000 85 (by decide)).1,
   (C5_ts_equals_client_ts 1700000000000 85 (by decide)).2.1⟩

/-! ### Classifying the events a cycle can emit -/

/-- Events an acquisition attempt can emit: bus operations, delays and
publishes of the three reading shapes (never a connect, an open or a
status publish). -/
def Event.isCycleEvent : Event → Bool
  | .reset _ => true
  | .writeBytes _ _ => true
  | .readBytes _ _ => true
  | .delayMs _ => true
  | .publish (.plain _) _ => true
  | .publish (.timestamped _ _ _) _ => true
  | .publish (.canonical _ _ _) _ => true
  | _ => false

/-- A cycle event is not a channel-open call. -/
theorem cycleEvent_not_open (e : Event) (h : e.isCycleEvent = true) :
    e.isOpenChannel = false := by
  cases e with
  | connectAttempt o => exact Bool.noConfusion h
  | openChannel o => exact Bool.noConfusion h
  | reset o => rfl
  | writeBytes c o => rfl
  | readBytes n o => rfl
  | delayMs m => rfl
  | publish p o => rfl

/-- A cycle event is not a connect attempt. -/
theorem cycleEvent_not_connect (e : Event) (h : e.isCycleEvent = true) :
    (match e with | .connectAttempt _ => true | _ => false) = false := by
  cases e with
  | connectAttempt o => exact Bool.noConfusion h
  | openChannel o => rfl
  | reset o => rfl
  | writeBytes c o => rfl
  | readBytes n o => rfl
  | delayMs m => rfl
  | publish p o => rfl

/-- A cycle event is not a status publish. -/
theorem cycleEvent_not_status (e : Event) (h : e.isCycleEvent = true) :
    e.isStatusPublish = false := by
  cases e with
  | connectAttempt o => rfl
  | openChannel o => rfl
  | reset o => rfl
  | writeBytes c o => rfl
  | readBytes n o => rfl
  | delayMs m => rfl
  | publish p o =>
    cases p with
    | plain q => rfl
    | timestamped a q b => rfl
    | canonical a q b => rfl
    | status x y z => exact Bool.noConfusion h

/-- If no event of a trace satisfies `p`, the count is zero. -/
theorem countEvents_eq_zero (p : Event → Bool) (t : List Event)
    (h : ∀ e ∈ t, p e = false) : countEvents p t = 0 := by
  unfold countEvents
  rw [List.filter_eq_nil_iff.mpr (by simpa using h)]
  rfl

/-- Count distributes over trace concatenation. -/
theorem countEvents_append (p : Event → Bool) (s t : List Event) :
    countEvents p (s ++ t) = countEvents p s + countEvents p t := by
  simp [countEvents, List.filter_append]

/-- The publish phase only appends cycle events to its prefix. -/
theorem publishSeq_cycleEvents (inp : CycleInputs) (pre t : List Event)
    (hpre : ∀ e ∈ pre, e.isCycleEvent = true)
    (h : publishSeq inp pre = .ok t) : ∀ e ∈ t, e.isCycleEvent = true := by
  simp only [publishSeq] at h
  cases hts : send_telemetry_with_timestamp inp.clockTs (decodeTemp inp.readData) with
  | none => rw [hts] at h; exact absurd h (by simp)
  | some p =>
    rw [hts] at h
    cases hf : send_telemetry_full_format inp.clockFull (decodeTemp inp.readData) with
    | none => rw [hf] at h; exact absurd h (by simp)
    | some q =>
      rw [hf] at h
      simp only [Except.ok.injEq] at h
      subst h
      intro e he
      simp only [List.append_assoc, List.mem_append, List.mem_singleton] at he
      rcases he with he | he | he
      · exact hpre e he
      · subst he
        simp [Event.isCycleEvent, send_telemetry]
      · rcases he with he | he
        · subst he
          rcases Option.map_eq_some'.mp
            (by simpa [send_telemetry_with_timestamp] using hts) with ⟨n, _, hn⟩
          subst hn
          simp [Event.isCycleEvent]
        · subst he
          rcases Option.map_eq_some'.mp
            (by simpa [send_telemetry_full_format] using hf) with ⟨n, _, hn⟩
          subst hn
          simp [Event.isCycleEvent]

/-- A loop iteration emits only cycle events. -/
theorem runCycle_cycleEvents (c : CycleInputs) (t : List Event)
    (h : runCycle c = .ok t) : ∀ e ∈ t, e.isCycleEvent = true := by
  unfold runCycle at h
  by_cases hr : c.reset1 = true
  · rw [if_pos hr] at h
    by_cases hro : c.readOk = true
    · rw [if_pos hro] at h
      cases hp : publishSeq c [.reset true, .writeBytes [0xCC, 0x44] c.write1,
          .delayMs 750, .reset c.reset2, .writeBytes [0xCC, 0xBE] c.write2,
          .readBytes 9 c.readOk] with
      | error m => rw [hp] at h; exact absurd h (by simp [Except.map])
      | ok u =>
        rw [hp] at h
        simp only [Except.map, Except.ok.injEq] at h
        subst h
        intro e he
        rcases List.mem_append.mp he with he | he
        · exact publishSeq_cycleEvents c _ u
            (by intro x hx; fin_cases hx <;> simp [Event.isCycleEvent]) hp e he
        · rcases List.mem_singleton.mp he with rfl
          simp [Event.isCycleEvent]
    · rw [if_neg hro] at h
      simp only [Except.ok.injEq] at h
      subst h
      intro e he
      fin_cases he <;> simp [Event.isCycleEvent]
  · rw [if_neg hr] at h
    simp only [Except.ok.injEq] at h
    subst h
    intro e he
    fin_cases he <;> simp [Event.isCycleEvent]

/-- The steady-state loop emits only cycle events. -/
theorem steadyLoop_cycleEvents (cs : List CycleInputs) (t : List Event)
    (h : steadyLoop cs = .ok t) : ∀ e ∈ t, e.isCycleEvent = true := by
  induction cs generalizing t with
  | nil =>
    simp only [steadyLoop, Except.ok.injEq] at h
    subst h
    intro e he
    exact absurd he (List.not_mem_nil e)
  | cons c rest ih =>
    simp only [steadyLoop] at h
    cases hc : runCycle c with
    | error m => rw [hc] at h; exact absurd h (by simp)
    | ok u =>
      rw [hc] at h
      cases hs : steadyLoop rest with
      | error m => rw [hs] at h; exact absurd h (by simp)
      | ok v =>
        rw [hs] at h
        simp only [Except.ok.injEq] at h
        subst h
        intro e he
        rcases List.mem_append.mp he with he | he
        · exact runCycle_cycleEvents c u hc e he
        · exact ih v hs e he

/-- The one-shot reading emits only cycle events. -/
theorem firstReading_cycleEvents (c : CycleInputs) (t : List Event)
    (h : firstReading c = .ok t) : ∀ e ∈ t, e.isCycleEvent = true := by
  unfold firstReading at h
  by_cases h1 : c.reset1 = true
  · rw [if_pos h1] at h
    by_cases h2 : c.write1 = true
    · rw [if_pos h2] at h
      by_cases h3 : c.reset2 = true
      · rw [if_pos h3] at h
        by_cases h4 : c.write2 = true
        · rw [if_pos h4] at h
          by_cases h5 : c.readOk = true
          · rw [if_pos h5] at h
            exact publishSeq_cycleEvents c _ t
              (by intro x hx; fin_cases hx <;> simp [Event.isCycleEvent]) h
          · rw [if_neg h5] at h
            simp only [Except.ok.injEq] at h
            subst h
            intro e he
            fin_cases he <;> simp [Event.isCycleEvent]
        · rw [if_neg h4] at h
          simp only [Except.ok.injEq] at h
          subst h
          intro e he
          fin_cases he <;> simp [Event.isCycleEvent]
      · rw [if_neg h3] at h
        simp only [Except.ok.injEq] at h
        subst h
        intro e he
        fin_cases he <;> simp [Event.isCycleEvent]
    · rw [if_neg h2] at h
      simp only [Except.ok.injEq] at h
      subst h
      intro e he
      fin_cases he <;> simp [Event.isCycleEvent]
  · rw [if_neg h1] at h
    simp only [Except.ok.injEq] at h
    subst h
    intro e he
    fin_cases he <;> simp [Event.isCycleEvent]

/-- Everything after the status publish is cycle events. -/
theorem postStatus_cycleEvents (inp : RunInputs) :
    ∀ e ∈ (postStatus inp).2, e.isCycleEvent = true := by
  unfold postStatus
  cases hf : firstReading inp.firstCycle with
  | error m => simp
  | ok tf =>
    cases hs : steadyLoop inp.cycles with
    | error m =>
      simpa using firstReading_cycleEvents inp.firstCycle tf hf
    | ok ts =>
      intro e he
      rcases List.mem_append.mp (by simpa using he) with he | he
      · exact firstReading_cycleEvents inp.firstCycle tf hf e he
      · exact steadyLoop_cycleEvents inp.cycles ts hs e he

/-- The run never ends with `Err` after the channel opened. -/
theorem postStatus_ne_fatal (inp : RunInputs) :
    (postStatus inp).1 ≠ Outcome.fatal := by
  unfold postStatus
  cases firstReading inp.firstCycle with
  | error m => simp
  | ok tf =>
    cases steadyLoop inp.cycles with
    | error m => simp
    | ok ts => simp

/-! ### Small evaluation facts about the event predicates -/

@[simp] theorem isOpenChannel_connectAttempt (o : Bool) :
    (Event.connectAttempt o).isOpenChannel = false := rfl

@[simp] theorem isOpenChannel_openChannel (o : Bool) :
    (Event.openChannel o).isOpenChannel = true := rfl

@[simp] theorem isOpenChannel_publish (p : Payload) (o : Bool) :
    (Event.publish p o).isOpenChannel = false := rfl

@[simp] theorem isOpenChannel_delayMs (m : Nat) :
    (Event.delayMs m).isOpenChannel = false := rfl

@[simp] theorem isStatusPublish_connectAttempt (o : Bool) :
    (Event.connectAttempt o).isStatusPublish = false := rfl

@[simp] theorem isStatusPublish_openChannel (o : Bool) :
    (Event.openChannel o).isStatusPublish = false := rfl

@[simp] theorem isStatusPublish_delayMs (m : Nat) :
    (Event.delayMs m).isStatusPublish = false := rfl

@[simp] theorem isStatusPublish_status (x y z : String) (o : Bool) :
    (Event.publish (.status x y z) o).isStatusPublish = true := rfl

@[simp] theorem isBusOp_connectAttempt (o : Bool) :
    (Event.connectAttempt o).isBusOp = false := rfl

@[simp] theorem isBusOp_openChannel (o : Bool) :
    (Event.openChannel o).isBusOp = false := rfl

@[simp] theorem isBusOp_publish (p : Payload) (o : Bool) :
    (Event.publish p o).isBusOp = false := rfl

@[simp] theorem isBusOp_delayMs (m : Nat) :
    (Event.delayMs m).isBusOp = false := rfl

/-! ### The Wi-Fi retry phase -/

/-- On a list of failures only, the retry loop consumes everything, never
reports the link up, and backs off 5000 ms after every attempt. -/
theorem wifiPhase_all_false (l : List Bool) (h : ∀ b ∈ l, b = false) :
    wifiPhase l = (false, wifiFailTrace l.length) := by
  induction l with
  | nil => rfl
  | cons b rest ih =>
    have hb : b = false := h b (List.mem_cons_self b rest)
    subst hb
    have hr := ih (fun x hx => h x (List.mem_cons_of_mem _ hx))
    simp [wifiPhase, wifiFailTrace, hr]

/-- With failures followed by a success, the retry loop ends on the
successful attempt: one backoff per failure, then the succeeding connect. -/
theorem wifiPhase_success (pre post : List Bool) (h : ∀ b ∈ pre, b = false) :
    wifiPhase (pre ++ true :: post) =
      (true, wifiFailTrace pre.length ++ [.connectAttempt true]) := by
  induction pre with
  | nil => simp [wifiPhase, wifiFailTrace]
  | cons b rest ih =>
    have hb : b = false := h b (List.mem_cons_self b rest)
    subst hb
    have hr := ih (fun x hx => h x (List.mem_cons_of_mem _ hx))
    simp [wifiPhase, wifiFailTrace, hr]

/-- The failure trace holds only failed connects and backoffs. -/
theorem wifiFailTrace_mem (n : Nat) :
    ∀ e ∈ wifiFailTrace n, e = .connectAttempt false ∨ e = .delayMs 5000 := by
  induction n with
  | zero => intro e he; exact absurd he (List.not_mem_nil e)
  | succ n ih =>
    intro e he
    rcases he with _ | ⟨_, he⟩
    · exact Or.inl rfl
    · rcases he with _ | ⟨_, he⟩
      · exact Or.inr rfl
      · exact ih e he

/-- No channel-open happens while the link is still down. -/
theorem countOpen_wifiFailTrace (n : Nat) :
    countEvents Event.isOpenChannel (wifiFailTrace n) = 0 :=
  countEvents_eq_zero _ _ (fun e he => by
    rcases wifiFailTrace_mem n e he with rfl | rfl <;> rfl)

/-- No bus operation happens while the link is still down. -/
theorem countBus_wifiFailTrace (n : Nat) :
    countEvents Event.isBusOp (wifiFailTrace n) = 0 :=
  countEvents_eq_zero _ _ (fun e he => by
    rcases wifiFailTrace_mem n e he with rfl | rfl <;> rfl)

/-- No status publish happens while the link is still down. -/
theorem countStatus_wifiFailTrace (n : Nat) :
    countEvents Event.isStatusPublish (wifiFailTrace n) = 0 :=
  countEvents_eq_zero _ _ (fun e he => by
    rcases wifiFailTrace_mem n e he with rfl | rfl <;> rfl)

/-- No channel-open happens after the status publish. -/
theorem countOpen_postStatus (inp : RunInputs) :
    countEvents Event.isOpenChannel (postStatus inp).2 = 0 :=
  countEvents_eq_zero _ _ (fun e he =>
    cycleEvent_not_open e (postStatus_cycleEvents inp e he))

/-- No second status publish happens after the first. -/
theorem countStatus_postStatus (inp : RunInputs) :
    countEvents Event.isStatusPublish (postStatus inp).2 = 0 :=
  countEvents_eq_zero _ _ (fun e he =>
    cycleEvent_not_status e (postStatus_cycleEvents inp e he))

/-! ### Claim C6 -/

/-- C6: the run returns `Err` (reports the error and terminates) exactly
when the link has come up and the channel-open then fails; no other fault
of the modelled fault taxonomy makes `main` return an error — a panic is a
distinct outcome, covered separately. -/
theorem C6_channel_open_failure_fatal (inp : RunInputs) :
    (run inp).1 = .fatal ↔
      ((wifiPhase inp.wifi).1 = true ∧ inp.mqttOpen = false) := by
  by_cases hw : (wifiPhase inp.wifi).1 = true
  · by_cases ho : inp.mqttOpen = true
    · simp [run, hw, ho, postStatus_ne_fatal inp]
    · rw [Bool.not_eq_true] at ho
      simp [run, hw, ho]
  · rw [Bool.not_eq_true] at hw
    simp [run, hw]

/-- Run whose link comes up at the second attempt and whose channel-open
fails. -/
def fatalRun : RunInputs :=
  { wifi := [false, true], mqttOpen := false, statusPub := true,
    firstCycle := noopCycle, cycles := [] }

/-- C6 at a concrete input: with the link up and the channel-open failing,
the run ends fatally. -/
theorem C6_channel_open_failure_fatal_witness : (run fatalRun).1 = .fatal :=
  (C6_channel_open_failure_fatal fatalRun).mpr (by decide)

/-! ### Claim C7 -/

/-- C7: connect failures are each followed by the fixed 5000 ms backoff and
retried without limit — on failures alone the run just accumulates
attempt/backoff pairs and never opens the channel — and once a connect
succeeds the channel-open is called exactly once, right after the
successful attempt. -/
theorem C7_connect_retry_single_open (pre post : List Bool) (inp : RunInputs)
    (hpre : ∀ b ∈ pre, b = false) (hw : inp.wifi = pre ++ true :: post) :
    (∃ t, (run inp).2 = wifiFailTrace pre.length ++ .connectAttempt true ::
          .openChannel inp.mqttOpen :: t ∧
        countEvents Event.isOpenChannel t = 0) ∧
      countEvents Event.isOpenChannel (run inp).2 = 1 ∧
      (run { inp with wifi := pre }).2 = wifiFailTrace pre.length ∧
      (run { inp with wifi := pre }).1 = .running ∧
      countEvents Event.isOpenChannel (wifiFailTrace pre.length) = 0 := by
  have hsucc := wifiPhase_success pre post hpre
  have hfail := wifiPhase_all_false pre hpre
  have hmain : ∃ t, (run inp).2 = wifiFailTrace pre.length ++
      .connectAttempt true :: .openChannel inp.mqttOpen :: t ∧
      countEvents Event.isOpenChannel t = 0 := by
    by_cases ho : inp.mqttOpen = true
    · refine ⟨.publish (send_ota_status "myFirmware" "1.0.0" "UPDATED")
        inp.statusPub :: (postStatus inp).2, ?_, ?_⟩
      · simp [run, hw, hsucc, ho]
      · have h0 := countOpen_postStatus inp
        simpa [countEvents] using h0
    · rw [Bool.not_eq_true] at ho
      refine ⟨[], ?_, rfl⟩
      simp [run, hw, hsucc, ho]
  refine ⟨hmain, ?_, ?_, ?_, countOpen_wifiFailTrace pre.length⟩
  · obtain ⟨t, htr, htc⟩ := hmain
    rw [htr, countEvents_append, countOpen_wifiFailTrace]
    have : countEvents Event.isOpenChannel (Event.connectAttempt true ::
        Event.openChannel inp.mqttOpen :: t) =
        1 + countEvents Event.isOpenChannel t := by
      simp [countEvents, List.filter_cons, Nat.add_comm]
    rw [this, htc]
  · simp [run, hfail]
  · simp [run, hfail]

/-- Run with three connect failures, then success, then a successful open. -/
def retryRun : RunInputs :=
  { wifi := [false, false, false, true], mqttOpen := true, statusPub := true,
    firstCycle := noopCycle, cycles := [] }

/-- C7 at the spec's scenario: three connect failures then a success lead
to exactly one channel-open call in the whole run. -/
theorem C7_connect_retry_single_open_witness :
    countEvents Event.isOpenChannel (run retryRun).2 = 1 :=
  (C7_connect_retry_single_open [false, false, false] [] retryRun
    (by decide) rfl).2.1

/-! ### Claim C8 -/

/-- C8: with the link up and the channel open, the trace is the link phase,
the open, then exactly one status publish — before any bus operation, all
of which sit in the later segment — and a failed status publish leaves the
outcome exactly what the remaining phases produce, never the fatal `Err`
exit. -/
theorem C8_status_once_after_open (pre post : List Bool) (inp : RunInputs)
    (hpre : ∀ b ∈ pre, b = false) (hw : inp.wifi = pre ++ true :: post)
    (ho : inp.mqttOpen = true) :
    (run inp).2 = wifiFailTrace pre.length ++ .connectAttempt true ::
        .openChannel true ::
        .publish (send_ota_status "myFirmware" "1.0.0" "UPDATED")
          inp.statusPub :: (postStatus inp).2 ∧
      countEvents Event.isStatusPublish (run inp).2 = 1 ∧
      countEvents Event.isBusOp (wifiFailTrace pre.length) = 0 ∧
      countEvents Event.isStatusPublish (postStatus inp).2 = 0 ∧
      (run inp).1 = (postStatus inp).1 ∧
      (run inp).1 ≠ .fatal := by
  have hsucc := wifiPhase_success pre post hpre
  have htr : (run inp).2 = wifiFailTrace pre.length ++ .connectAttempt true ::
      .openChannel true ::
      .publish (send_ota_status "myFirmware" "1.0.0" "UPDATED")
        inp.statusPub :: (postStatus inp).2 := by
    simp [run, hw, hsucc, ho]
  have hout : (run inp).1 = (postStatus inp).1 := by
    simp [run, hw, hsucc, ho]
  refine ⟨htr, ?_, countBus_wifiFailTrace pre.length,
    countStatus_postStatus inp, hout, ?_⟩
  · rw [htr, countEvents_append, countStatus_wifiFailTrace]
    have h0 := countStatus_postStatus inp
    simp [countEvents, List.filter_cons, send_ota_status] at h0 ⊢
    simpa [countEvents] using h0
  · rw [hout]
    exact postStatus_ne_fatal inp

/-- Run with an immediate link-up, a successful open and a failing status
publish, followed by a normal cycle. -/
def statusRun : RunInputs :=
  { wifi := [true], mqttOpen := true, statusPub := false,
    firstCycle := noopCycle, cycles := [okCycle buf85] }

/-- C8 at a concrete input: one status publish, and its failure leaves the
run non-fatal. -/
theorem C8_status_once_after_open_witness :
    countEvents Event.isStatusPublish (run statusRun).2 = 1 ∧
      (run statusRun).1 ≠ .fatal :=
  ⟨(C8_status_once_after_open [] [] statusRun (by decide) rfl rfl).2.1,
   (C8_status_once_after_open [] [] statusRun (by decide) rfl rfl).2.2.2.2.2⟩

/-! ### Claim C10 -/

/-- Run reaching the steady loop with exactly the given cycle. -/
def panicRun (c : CycleInputs) : RunInputs :=
  { wifi := [true], mqttOpen := true, statusPub := true,
    firstCycle := noopCycle, cycles := [c] }

/-- C10: if the clock at message-build time is before the Unix epoch, both
timestamp-carrying builders panic (the `unwrap` on `duration_since`), the
cycle aborts with a panic instead of a logged per-cycle fault, and the
whole process terminates panicked. -/
theorem C10_pre_epoch_clock_panics (c : CycleInputs) (hr : c.reset1 = true)
    (hrd : c.readOk = true) (hclk : c.clockTs < 0) :
    send_telemetry_with_timestamp c.clockTs (decodeTemp c.readData) = none ∧
      send_telemetry_full_format c.clockTs (decodeTemp c.readData) = none ∧
      runCycle c = .error "panicked: duration_since unwrap" ∧
      (run (panicRun c)).1 = .panicked := by
  have hnone : send_telemetry_with_timestamp c.clockTs
      (decodeTemp c.readData) = none := by
    simp [send_telemetry_with_timestamp, epochMillis, hclk]
  have hrc : runCycle c = .error "panicked: duration_since unwrap" := by
    simp [runCycle, publishSeq, hr, hrd, hnone, Except.map]
  refine ⟨hnone, ?_, hrc, ?_⟩
  · simp [send_telemetry_full_format, epochMillis, hclk]
  · simp [run, panicRun, wifiPhase, postStatus, firstReading, noopCycle,
      steadyLoop, hrc]

/-- Cycle with a successful acquisition but a clock one millisecond before
the epoch. -/
def preEpochCycle : CycleInputs := { okCycle buf85 with clockTs := -1 }

/-- C10 at a concrete input: the pre-epoch clock terminates the whole run
with a panic. -/
theorem C10_pre_epoch_clock_panics_witness :
    (run (panicRun preEpochCycle)).1 = .panicked :=
  (C10_pre_epoch_clock_panics preEpochCycle rfl rfl (by decide)).2.2.2
